import Mathlib

/-!
# Verification of the `forecast_index` FMRC query engine

A shallow embedding of `src/forecast_index.py`: the four cut strategies
(`ModelRun`, `ConstantOffset`, `ConstantForecast`, `BestEstimate`) and the
dispatcher `ForecastIndex.sel` that resolves a selection request against the
reference-time axis and the period axis.

Modelling conventions:
* Timestamps and durations are counted in whole hours as integers (`ℤ`);
  the `pd.Timestamp.hour` attribute becomes `t % 24`, the `18h`
  extended-range threshold becomes the integer `18`.
* The two pandas index objects become sorted `List ℤ` values; pandas
  operations (`get_loc`, `get_indexer`, `get_slice_bound`) are embedded as
  executable functions below, faithful to their exact-match semantics on a
  monotonically increasing unique index.
* Python exceptions become an explicit error type `PyError`; a call that can
  raise returns `Except PyError _`.
-/

namespace ForecastSpec

/-- The `Model` enum of the source; only `HRRR` exists. -/
inductive Model where
  | hrrr
  deriving DecidableEq, Repr

/-- `pd.Timestamp.hour` for a timestamp counted in whole hours:
the hour-of-day, in `[0, 24)`. -/
def hour (t : ℤ) : ℤ := t % 24

/-- Python exceptions raised by the source, named after the spec's error
taxonomy where it has a name for them:
* `notFound` is the `KeyError` raised by `pandas.Index.get_loc`
  (the spec's **NotFound**);
* `invalidConfiguration` is a `ValueError` raised for a bad configuration
  (mixed selection keys, or a period axis not starting at zero — the spec's
  **InvalidConfiguration**);
* `unsupportedSelectorType` is the `ValueError` of the dispatcher's
  fall-through `case _` branch (the spec's **UnsupportedSelectorType**);
* `attributeError` is an `AttributeError` from looking up an attribute that
  does not exist (`label.get_indexer` on a non-Query value, or the undefined
  `since` field in `BestEstimate.__post_init__`);
* `indexError` is an `IndexError` from positional indexing out of range;
* `assertionError` is a failing `assert` statement. -/
inductive PyError where
  | notFound
  | invalidConfiguration
  | unsupportedSelectorType
  | attributeError
  | indexError
  | assertionError
  deriving DecidableEq, Repr

/-- `pandas.Index.get_loc` restricted to exact matching: the position of the
first exact match, or `none` (the caller decides whether `none` is a
`KeyError`). -/
def idxOf? (l : List ℤ) (x : ℤ) : Option ℕ :=
  match l with
  | [] => none
  | a :: t => if a = x then some 0 else (idxOf? t x).map (· + 1)

/-- `pandas.Index.get_indexer([x])` for a single target: the position of the
exact match, or the sentinel `-1` when there is none.  No exception is
raised. -/
def getIndexer1 (l : List ℤ) (x : ℤ) : ℤ :=
  match idxOf? l x with
  | some i => (i : ℤ)
  | none => -1

/-- Length of the prefix of `l` on which `p` holds.  On a monotonically
increasing index this is exactly `pandas.Index.get_slice_bound` /
`numpy.searchsorted` for a predicate of the form `(· < e)` (side `left`) or
`(· ≤ e)` (side `right`). -/
def boundCount (p : ℤ → Bool) (l : List ℤ) : ℕ :=
  match l with
  | [] => 0
  | a :: t => if p a then boundCount p t + 1 else 0

/-- `time_index.get_slice_bound(e, side="left")`: first position whose value
is not `< e`. -/
def lowerBound (l : List ℤ) (e : ℤ) : ℕ := boundCount (fun x => x < e) l

/-- `time_index.get_slice_bound(e, side="right")`: one past the last position
whose value is `≤ e`. -/
def upperBound (l : List ℤ) (e : ℤ) : ℕ := boundCount (fun x => x ≤ e) l

/-- A positional indexer as produced by the strategies: a scalar position
(`one`, possibly the pandas sentinel `-1`), a contiguous prefix slice
(`sl none` = `slice(None)`, `sl (some k)` = `slice(k)`), or an explicit
position array (`arr`). -/
inductive Idxr where
  | one (i : ℤ)
  | sl (stop : Option ℕ)
  | arr (is : List ℤ)
  deriving DecidableEq, Repr

/-- The list of positions an indexer denotes against an axis of length `M`
(numpy semantics: `slice(k)` clamps at `M`; a scalar is a single position). -/
def Idxr.positions (M : ℕ) : Idxr → List ℤ
  | .one i => [i]
  | .sl none => (List.range M).map Int.ofNat
  | .sl (some k) => (List.range (min k M)).map Int.ofNat
  | .arr is => is

/-- Positional indexing with Python/numpy negative-index semantics:
`ax[-1]` is the last element.  Out-of-range positions return `0`
(the Python code would raise; no claim exercises that case with an
out-of-range non-negative index). -/
def pyGet (ax : List ℤ) (i : ℤ) : ℤ :=
  if i < 0 then ax.getD (ax.length - (-i).toNat) 0 else ax.getD i.toNat 0

/-- `ax[idxr]` as a list of axis values. -/
def valsOf (ax : List ℤ) (ix : Idxr) : List ℤ :=
  (ix.positions ax.length).map (pyGet ax)

/-- numpy broadcasting of `+` over two 1-D operands, where a scalar operand
is represented as a length-1 list. -/
def bcast (xs ys : List ℤ) : List ℤ :=
  if xs.length = 1 then ys.map (fun y => xs.headI + y)
  else if ys.length = 1 then xs.map (fun x => x + ys.headI)
  else xs.zipWith (· + ·) ys

/-- The (time position, period position) pairs paired up by the same
broadcasting discipline as `bcast`. -/
def bcastPairs (xs ys : List ℤ) : List (ℤ × ℤ) :=
  if xs.length = 1 then ys.map (fun y => (xs.headI, y))
  else if ys.length = 1 then xs.map (fun x => (x, ys.headI))
  else xs.zip ys

/-! ## The four query strategies -/

/-- `ModelRun.get_indexer`: exact position of the target reference time
(`get_loc`, raising `KeyError` when absent); full period slice, truncated to
`slice(19)` for an HRRR run whose issuance hour is not a multiple of 6. -/
def ModelRun.get_indexer (model : Option Model) (time_index period_index : List ℤ)
    (time : ℤ) : Except PyError (Idxr × Idxr) :=
  match idxOf? time_index time with
  | none => .error .notFound
  | some time_idxr =>
    let period_idxr : Idxr :=
      if model = some Model.hrrr ∧ hour time % 6 ≠ 0 then .sl (some 19) else .sl none
    .ok (.one (time_idxr : ℤ), period_idxr)

/-- `ConstantOffset.get_indexer`: the period position comes from
`period_index.get_indexer([step])`, so an absent step yields the sentinel
`-1` and no exception.  The reference-time indexer is the full slice unless
the step exceeds 18 hours under HRRR, in which case it is the explicit array
of positions whose issuance hour is a multiple of 6.  This function is
total: it never raises. -/
def ConstantOffset.get_indexer (model : Option Model) (time_index period_index : List ℤ)
    (step : ℤ) : Idxr × Idxr :=
  let period_idxr := getIndexer1 period_index step
  let time_idxr : Idxr :=
    if model = some Model.hrrr ∧ step > 18 then
      .arr ((time_index.enum.filter (fun p => hour p.2 % 6 == 0)).map (fun p => (p.1 : ℤ)))
    else .sl none
  (time_idxr, .one period_idxr)

/-- `ConstantForecast.get_indexer`: the diagonal cut.  Window the reference
times to `[target - max_period, target]`, compute the needed step for each
candidate, look it up exactly (`get_indexer`, sentinel `-1`), and drop
candidates that miss (`-1`) or that the HRRR mask excludes
(`hour ≠ 6` and `step > 18h`).  `period_index[-1]` on an empty axis is an
`IndexError`. -/
def ConstantForecast.get_indexer (model : Option Model) (time_index period_index : List ℤ)
    (target : ℤ) : Except PyError (Idxr × Idxr) :=
  match period_index.getLast? with
  | none => .error .indexError
  | some max_timedelta =>
    let earliest := target - max_timedelta
    let left := lowerBound time_index earliest
    let right := upperBound time_index target
    let needed_times := (time_index.drop left).take (right - left)
    let needed_time_idxs := List.range' left (right - left)
    let needed_step_idxs := needed_times.map (fun t => getIndexer1 period_index (target - t))
    let triples := needed_time_idxs.zip (needed_times.zip needed_step_idxs)
    let kept := triples.filter (fun x =>
      (!(decide (model = some Model.hrrr) && decide (hour x.2.1 ≠ 6)
          && decide (target - x.2.1 > 18))) && (x.2.2 != -1))
    .ok (.arr (kept.map (fun x => (x.1 : ℤ))), .arr (kept.map (fun x => x.2.2)))

/-- `BestEstimate.__post_init__`: `if self.asof is not None and
self.asof < self.since` — the class has no `since` attribute (the field is
commented out in the source), so evaluating the comparison for any non-`None`
`asof` raises `AttributeError`; with `asof=None` the conjunction
short-circuits and construction succeeds. -/
def BestEstimate.post_init (asof : Option ℤ) : Except PyError Unit :=
  match asof with
  | none => .ok ()
  | some _ => .error .attributeError

/-- `BestEstimate.get_indexer`: requires `period_index[0] == 0`
(`ValueError` = InvalidConfiguration otherwise; `IndexError` on an empty
axis); `last_index` is the last axis position, or `get_loc(asof)`
(`KeyError` when absent); `nsteps` is `19` for an HRRR cutoff whose hour is
not a multiple of 6, else the full period count; the result is the pair of
parallel arrays `[0..last_index) ++ repeat last_index` /
`repeat 0 ++ [0..nsteps)`. -/
def BestEstimate.get_indexer (model : Option Model) (time_index period_index : List ℤ)
    (asof : Option ℤ) : Except PyError (Idxr × Idxr) :=
  match period_index with
  | [] => .error .indexError
  | p0 :: _ =>
    if p0 ≠ 0 then .error .invalidConfiguration
    else
      let lastIdx? : Option ℕ :=
        match asof with
        | none => some (time_index.length - 1)
        | some a => idxOf? time_index a
      match lastIdx? with
      | none => .error .notFound
      | some last_index =>
        let nsteps : ℕ :=
          if model = some Model.hrrr ∧ hour (time_index.getD last_index 0) % 6 ≠ 0 then 19
          else period_index.length
        let needed_time_idxrs : List ℤ :=
          (List.range' 0 last_index).map Int.ofNat
            ++ List.replicate nsteps (last_index : ℤ)
        let needed_step_idxrs : List ℤ :=
          List.replicate last_index 0 ++ (List.range nsteps).map Int.ofNat
        .ok (.arr needed_time_idxrs, .arr needed_step_idxrs)

/-! ## The dispatcher `ForecastIndex.sel` -/

/-- The closed set of FMRC query objects (`ConstantOffset | ModelRun |
ConstantForecast | BestEstimate`), holding only the caller-supplied
target. -/
inductive QueryLabel where
  | modelRun (time : ℤ)
  | constantOffset (step : ℤ)
  | constantForecast (time : ℤ)
  | bestEstimate (asof : Option ℤ)
  deriving DecidableEq, Repr

/-- A value bound to a key of the selection-request mapping.  `query` is one
of the four recognized Query objects; `plain` is an ordinary scalar label
(a timestamp or duration); `otherVal b` stands for any other Python object,
where `b` records the one behavioural distinction the dispatcher is
sensitive to — whether the object happens to expose a `get_indexer`
method. -/
inductive SelValue where
  | query (q : QueryLabel)
  | plain (v : ℤ)
  | otherVal (hasGetIndexer : Bool)
  deriving DecidableEq, Repr

/-- A resolved cube-aware selection: the two positional indexers, the name
of the axis the result varies along, the derived valid-time coordinate
(absent for `ConstantForecast`, whose valid time is the query input), and
the coordinate names dropped from the result. -/
structure SelResult where
  timeIdxr : Idxr
  periodIdxr : Idxr
  resultDim : String
  validTime : Option (List ℤ)
  dropCoords : List String
  deriving DecidableEq, Repr

/-- The outcome of `ForecastIndex.sel`: a cube-aware resolution, or a
plain-axis resolution carrying the independently-resolved position of each
axis label that was supplied. -/
inductive SelOutcome where
  | cube (r : SelResult)
  | plainSel (timePos : Option ℕ) (periodPos : Option ℕ)
  deriving DecidableEq, Repr

/-- Plain-axis exact lookup (`PandasIndex.sel` with a scalar label):
position of the exact match, `KeyError` when the label is absent or is not
an axis label at all. -/
def plainLookup (ax : List ℤ) (v : SelValue) : Except PyError ℕ :=
  match v with
  | .plain x =>
    match idxOf? ax x with
    | some i => .ok i
    | none => .error .notFound
  | _ => .error .notFound

/-- The cube-aware branch of `ForecastIndex.sel`: call the label's
`get_indexer`, then package the result per query kind (the `match label`
statement of the source), deriving the valid-time coordinate
`time_index[time_idxr] + period_index[period_idxr]` for every kind except
`ConstantForecast`.  The result dims follow the source: `ConstantOffset`
varies along the reference-time axis, `ModelRun` along the period axis,
`ConstantForecast` along the reference-time axis, `BestEstimate` along the
fresh `"valid_time"` axis.  `drop_coords` is the literal `["forecast"]` of
the source. -/
def cubeSel (time_name period_name : String) (model : Option Model)
    (time_index period_index : List ℤ) (q : QueryLabel) : Except PyError SelResult :=
  match q with
  | .constantOffset s =>
    let (tix, pix) := ConstantOffset.get_indexer model time_index period_index s
    .ok { timeIdxr := tix, periodIdxr := pix, resultDim := time_name,
          validTime := some (bcast (valsOf time_index tix) (valsOf period_index pix)),
          dropCoords := ["forecast"] }
  | .modelRun t =>
    match ModelRun.get_indexer model time_index period_index t with
    | .error e => .error e
    | .ok (tix, pix) =>
      .ok { timeIdxr := tix, periodIdxr := pix, resultDim := period_name,
            validTime := some (bcast (valsOf time_index tix) (valsOf period_index pix)),
            dropCoords := ["forecast"] }
  | .constantForecast t =>
    match ConstantForecast.get_indexer model time_index period_index t with
    | .error e => .error e
    | .ok (tix, pix) =>
      .ok { timeIdxr := tix, periodIdxr := pix, resultDim := time_name,
            validTime := none, dropCoords := ["forecast"] }
  | .bestEstimate asof =>
    match BestEstimate.get_indexer model time_index period_index asof with
    | .error e => .error e
    | .ok (tix, pix) =>
      .ok { timeIdxr := tix, periodIdxr := pix, resultDim := "valid_time",
            validTime := some (bcast (valsOf time_index tix) (valsOf period_index pix)),
            dropCoords := ["forecast"] }

/-- `ForecastIndex.sel`.  The selection request is the mapping `labels`
(a key/value list; Python dict keys are unique, which the theorems do not
need to assume).  Control flow follows the source exactly:
1. the cube-query role key (`dummy_name`) together with any other key is a
   `ValueError` (InvalidConfiguration);
2. a request touching the reference-time or period axis name is plain-axis
   mode (with an inner re-check of rule 1), each present key delegated to
   that axis's own exact lookup;
3. otherwise the request must be the single cube-query entry (`assert`),
   whose value is dispatched on its type — but its `get_indexer` attribute
   is looked up and called *first*, so a value without that attribute fails
   with `AttributeError` before the `case _` branch can raise
   `UnsupportedSelectorType`. -/
def ForecastIndex.sel (dummy_name time_name period_name : String) (model : Option Model)
    (time_index period_index : List ℤ) (labels : List (String × SelValue)) :
    Except PyError SelOutcome :=
  if (labels.any fun l => l.1 == dummy_name) ∧ labels.length ≠ 1 then
    .error .invalidConfiguration
  else if (labels.any fun l => l.1 == time_name) ∨ (labels.any fun l => l.1 == period_name) then
    if labels.any fun l => l.1 == dummy_name then .error .invalidConfiguration
    else
      let tpos? : Except PyError (Option ℕ) :=
        match labels.lookup time_name with
        | some v => (plainLookup time_index v).map some
        | none => .ok none
      let ppos? : Except PyError (Option ℕ) :=
        match labels.lookup period_name with
        | some v => (plainLookup period_index v).map some
        | none => .ok none
      match tpos?, ppos? with
      | .error e, _ => .error e
      | .ok _, .error e => .error e
      | .ok tp, .ok pp => .ok (.plainSel tp pp)
  else
    match labels with
    | [(k, v)] =>
      if k = dummy_name then
        match v with
        | .query q => (cubeSel time_name period_name model time_index period_index q).map .cube
        | .plain _ => .error .attributeError
        | .otherVal hasGI =>
          if hasGI then .error .unsupportedSelectorType else .error .attributeError
      else .error .assertionError
    | _ => .error .assertionError

/-- End-to-end `BestEstimate` use: construct the query object
(`__post_init__` runs), then resolve it. -/
def BestEstimate.resolve (model : Option Model) (time_index period_index : List ℤ)
    (asof : Option ℤ) : Except PyError (Idxr × Idxr) :=
  match BestEstimate.post_init asof with
  | .error e => .error e
  | .ok _ => BestEstimate.get_indexer model time_index period_index asof

/-! ## Helper lemmas about the embedded pandas primitives -/

theorem idxOf?_spec {l : List ℤ} {x : ℤ} {i : ℕ} (h : idxOf? l x = some i) :
    ∃ hi : i < l.length, l[i] = x := by
  induction l generalizing i with
  | nil => simp [idxOf?] at h
  | cons a t ih =>
    by_cases hax : a = x
    · simp [idxOf?, hax] at h
      subst h
      exact ⟨by simp, hax⟩
    · simp only [idxOf?, if_neg hax, Option.map_eq_some'] at h
      obtain ⟨j, hj, rfl⟩ := h
      obtain ⟨hjl, hget⟩ := ih hj
      exact ⟨by simpa using Nat.succ_lt_succ hjl, by simpa using hget⟩

theorem idxOf?_eq_none {l : List ℤ} {x : ℤ} : idxOf? l x = none ↔ x ∉ l := by
  induction l with
  | nil => simp [idxOf?]
  | cons a t ih =>
    by_cases hax : a = x
    · simp [idxOf?, hax]
    · simp [idxOf?, hax, ih, Ne.symm hax]

theorem idxOf?_getElem {l : List ℤ} (hs : l.Pairwise (· < ·)) (i : ℕ) (hi : i < l.length) :
    idxOf? l l[i] = some i := by
  induction l generalizing i with
  | nil => simp at hi
  | cons a t ih =>
    rcases i with _ | j
    · simp [idxOf?]
    · have hj : j < t.length := by simpa using hi
      have hmem : t[j] ∈ t := List.getElem_mem hj
      have hlt : a < t[j] := (List.pairwise_cons.mp hs).1 _ hmem
      have hne : a ≠ t[j] := ne_of_lt hlt
      have : (a :: t)[j + 1] = t[j] := by simp
      rw [this]
      simp only [idxOf?, if_neg hne, ih (List.pairwise_cons.mp hs).2 j hj, Option.map_some']

theorem getIndexer1_eq_neg_one {l : List ℤ} {x : ℤ} :
    getIndexer1 l x = -1 ↔ x ∉ l := by
  rcases h : idxOf? l x with _ | i
  · simp [getIndexer1, h, idxOf?_eq_none.mp h]
  · have hmem : x ∈ l := by
      obtain ⟨hi, hget⟩ := idxOf?_spec h
      exact hget ▸ List.getElem_mem hi
    simp only [getIndexer1, h]
    constructor
    · intro hcon
      exact absurd hcon (by omega)
    · intro hm
      exact absurd hmem hm

theorem getIndexer1_spec {l : List ℤ} {x : ℤ} (h : getIndexer1 l x ≠ -1) :
    ∃ (i : ℕ) (hi : i < l.length), getIndexer1 l x = (i : ℤ) ∧ l[i] = x := by
  unfold getIndexer1 at h ⊢
  rcases hfind : idxOf? l x with _ | i
  · rw [hfind] at h; simp at h
  · obtain ⟨hi, hget⟩ := idxOf?_spec hfind
    exact ⟨i, hi, rfl, hget⟩

theorem getIndexer1_of_mem {l : List ℤ} {x : ℤ} (h : x ∈ l) : getIndexer1 l x ≠ -1 := by
  intro hcon
  exact (getIndexer1_eq_neg_one.mp hcon) h

theorem boundCount_le_length (p : ℤ → Bool) (l : List ℤ) : boundCount p l ≤ l.length := by
  induction l with
  | nil => simp [boundCount]
  | cons a t ih =>
    by_cases hpa : p a
    · simpa [boundCount, hpa] using ih
    · simp [boundCount, hpa]

theorem boundCount_spec {p : ℤ → Bool} (hmono : ∀ x y : ℤ, x < y → p y = true → p x = true)
    {l : List ℤ} (hs : l.Pairwise (· < ·)) {i : ℕ} (hi : i < l.length) :
    p l[i] = true ↔ i < boundCount p l := by
  induction l generalizing i with
  | nil => simp at hi
  | cons a t ih =>
    have hhead := (List.pairwise_cons.mp hs).1
    have htail := (List.pairwise_cons.mp hs).2
    by_cases hpa : p a = true
    · rcases i with _ | j
      · simp [boundCount, hpa]
      · have hj : j < t.length := by simpa using hi
        have : (a :: t)[j + 1] = t[j] := by simp
        rw [this]
        simp only [boundCount, if_pos hpa]
        rw [ih htail hj]
        omega
    · have hz : boundCount p (a :: t) = 0 := by simp [boundCount, hpa]
      rcases i with _ | j
      · simp [hz, hpa]
      · have hj : j < t.length := by simpa using hi
        have : (a :: t)[j + 1] = t[j] := by simp
        rw [this, hz]
        have hmem : t[j] ∈ t := List.getElem_mem hj
        have : p t[j] ≠ true := by
          intro hptj
          exact hpa (hmono a t[j] (hhead _ hmem) hptj)
        simp [this]

theorem boundCount_imp {p q : ℤ → Bool} (h : ∀ x, p x = true → q x = true) (l : List ℤ) :
    boundCount p l ≤ boundCount q l := by
  induction l with
  | nil => simp [boundCount]
  | cons a t ih =>
    by_cases hpa : p a = true
    · simp [boundCount, hpa, h a hpa]; omega
    · simp [boundCount, hpa]

theorem map_zip_eq_zipWith (h : ℤ → ℤ → ℤ) :
    ∀ xs ys : List ℤ, (xs.zip ys).map (fun q => h q.1 q.2) = List.zipWith h xs ys := by
  intro xs
  induction xs with
  | nil => intro ys; simp
  | cons x xt ih =>
    intro ys
    cases ys with
    | nil => simp
    | cons y yt => simp [ih]

theorem bcast_map (f g : ℤ → ℤ) (xs ys : List ℤ) :
    bcast (xs.map f) (ys.map g) = (bcastPairs xs ys).map (fun q => f q.1 + g q.2) := by
  by_cases h1 : xs.length = 1
  · obtain ⟨a, rfl⟩ := List.length_eq_one.mp h1
    simp [bcast, bcastPairs]
  · by_cases h2 : ys.length = 1
    · obtain ⟨b, rfl⟩ := List.length_eq_one.mp h2
      simp [bcast, bcastPairs, h1]
    · have hx : (xs.map f).length = 1 ↔ xs.length = 1 := by simp
      have hy : (ys.map g).length = 1 ↔ ys.length = 1 := by simp
      simp only [bcast, bcastPairs, if_neg (hx.not.mpr h1), if_neg (hy.not.mpr h2),
        if_neg h1, if_neg h2]
      rw [List.zipWith_map, ← map_zip_eq_zipWith]

/-- The derived valid-time coordinate always decomposes into the broadcast
pairs of selector positions, each summed through the two axes. -/
theorem bcast_valsOf (ti pi : List ℤ) (a b : Idxr) :
    bcast (valsOf ti a) (valsOf pi b) =
      (bcastPairs (a.positions ti.length) (b.positions pi.length)).map
        (fun q => pyGet ti q.1 + pyGet pi q.2) := by
  unfold valsOf
  exact bcast_map (pyGet ti) (pyGet pi) _ _

/-- Reduction of the dispatcher on a well-formed cube-aware request: a
single entry under the cube-query role (whose name differs from both axis
names, as it always does for an index built by `from_variables`) dispatches
to `cubeSel`. -/
theorem sel_single_query (dummy_name time_name period_name : String) (model : Option Model)
    (time_index period_index : List ℤ) (v : SelValue)
    (hd1 : dummy_name ≠ time_name) (hd2 : dummy_name ≠ period_name) :
    ForecastIndex.sel dummy_name time_name period_name model time_index period_index
        [(dummy_name, v)] =
      (match v with
       | .query q => (cubeSel time_name period_name model time_index period_index q).map .cube
       | .plain _ => .error .attributeError
       | .otherVal hasGI =>
         if hasGI then .error .unsupportedSelectorType else .error .attributeError) := by
  unfold ForecastIndex.sel
  have h1 : ¬((([(dummy_name, v)].any fun l => l.1 == dummy_name)) ∧
      ([(dummy_name, v)].length ≠ 1)) := by simp
  rw [if_neg h1]
  have h2 : ¬((([(dummy_name, v)].any fun l => l.1 == time_name)) ∨
      (([(dummy_name, v)].any fun l => l.1 == period_name))) := by
    simp [hd1, hd2]
  rw [if_neg h2]
  simp

/-! ## The scenario of spec §8 -/

/-- ReferenceTimeAxis of the §8 scenario: hourly timestamps 00:00..23:00 of
one day, counted in hours. -/
def scenarioTimes : List ℤ := (List.range 24).map Int.ofNat

/-- PeriodAxis of the §8 scenario: hourly durations 0h..48h. -/
def scenarioPeriods : List ℤ := (List.range 49).map Int.ofNat

/-! ## Claims -/

/-- Claim C1 (code bug): resolving `ConstantOffset` for a period with no
exact match on the period axis does **not** fail with NotFound.
`period_index.get_indexer([step])` returns the sentinel `-1`, which the code
passes straight through as the period position; the dispatcher then resolves
it as Python position `-1` — the **last** period — and happily derives valid
times from it.  At the failing input (reference times 10h, 11h, 12h;
periods 0h, 1h, 2h; query step 5h) the selection succeeds with period
position `-1` and valid times `[12, 13, 14]` (the 2h period silently used in
place of the absent 5h). -/
theorem constantOffset_missing_step_is_silent :
    ConstantOffset.get_indexer none [10, 11, 12] [0, 1, 2] 5 =
      (Idxr.sl none, Idxr.one (-1)) ∧
    cubeSel "time" "step" none [10, 11, 12] [0, 1, 2] (QueryLabel.constantOffset 5) =
      .ok { timeIdxr := Idxr.sl none, periodIdxr := Idxr.one (-1), resultDim := "time",
            validTime := some [12, 13, 14], dropCoords := ["forecast"] } := by
  exact ⟨rfl, rfl⟩

/-- Claim C4: any selection request that contains the cube-query role key
together with at least one other key — whatever the keys and values are —
fails with InvalidConfiguration before any selection is produced. -/
theorem sel_mixed_keys_invalid (dummy_name time_name period_name : String)
    (model : Option Model) (time_index period_index : List ℤ)
    (labels : List (String × SelValue))
    (hmem : (labels.any fun l => l.1 == dummy_name) = true)
    (hlen : labels.length ≠ 1) :
    ForecastIndex.sel dummy_name time_name period_name model time_index period_index labels =
      .error .invalidConfiguration := by
  unfold ForecastIndex.sel
  rw [if_pos ⟨hmem, hlen⟩]

/-- Witness for C4: the cube-query role plus a reference-time key is
rejected. -/
theorem sel_mixed_keys_invalid_witness :
    ((([("forecast", SelValue.query (QueryLabel.bestEstimate none)),
        ("time", SelValue.plain 0)] : List (String × SelValue)).any
        fun l => l.1 == "forecast") = true) ∧
    (([("forecast", SelValue.query (QueryLabel.bestEstimate none)),
       ("time", SelValue.plain 0)] : List (String × SelValue)).length ≠ 1) ∧
    ForecastIndex.sel "forecast" "time" "step" none [0] [0]
        [("forecast", SelValue.query (QueryLabel.bestEstimate none)),
         ("time", SelValue.plain 0)] =
      .error .invalidConfiguration :=
  ⟨by decide, by decide,
    sel_mixed_keys_invalid "forecast" "time" "step" none [0] [0] _ (by decide) (by decide)⟩

/-- Claim C7 (counterexample): in the §8 scenario, `ConstantOffset(32h)`
does **not** reduce the reference-time selector to the single position of
hour 06:00.  The code keeps every reference time whose hour is a multiple
of 6 (`hour % 6 != 0` is masked out), so the selector is the four positions
0, 6, 12, 18. -/
theorem constantOffset32_counterexample :
    (ConstantOffset.get_indexer (some Model.hrrr) scenarioTimes scenarioPeriods 32).1 =
      Idxr.arr [0, 6, 12, 18] ∧
    Idxr.arr [0, 6, 12, 18] ≠ Idxr.arr [6] := by
  exact ⟨by decide, by decide⟩

/-- Claim C7 (amended): in the §8 scenario, `ConstantOffset(32h)` resolves
to the reference-time positions of hours 00:00, 06:00, 12:00, 18:00 (the
hours divisible by 6) and the exact period position 32. -/
theorem constantOffset32_selector :
    ConstantOffset.get_indexer (some Model.hrrr) scenarioTimes scenarioPeriods 32 =
      (Idxr.arr [0, 6, 12, 18], Idxr.one 32) := by
  decide

/-- Number of leading period positions the availability rule retains for a
reference time `r` on a period axis of length `M`: the full axis, except
that an HRRR run whose issuance hour is not a multiple of 6 keeps only the
first 19 positions (`slice(19)`, clamped at the axis length). -/
def retainedCount (model : Option Model) (r : ℤ) (M : ℕ) : ℕ :=
  if model = some Model.hrrr ∧ hour r % 6 ≠ 0 then min 19 M else M

/-- Claim C9: for a reference time `r` present on the axis, `ModelRun(r)`
resolves the reference-time selector to the exact position of `r`, and the
period selector denotes exactly the contiguous position range
`[0, retainedCount)` — the full axis unless the availability rule truncates
the run. -/
theorem modelRun_selector (model : Option Model) (time_index period_index : List ℤ)
    (r : ℤ) (hr : r ∈ time_index) :
    ∃ (i : ℕ) (hi : i < time_index.length) (p : Idxr),
      time_index.get ⟨i, hi⟩ = r ∧
      ModelRun.get_indexer model time_index period_index r = .ok (.one (i : ℤ), p) ∧
      p.positions period_index.length =
        (List.range (retainedCount model r period_index.length)).map Int.ofNat ∧
      (¬(model = some Model.hrrr ∧ hour r % 6 ≠ 0) →
        retainedCount model r period_index.length = period_index.length) := by
  rcases hfind : idxOf? time_index r with _ | i
  · exact absurd hr (idxOf?_eq_none.mp hfind)
  · obtain ⟨hi, hget⟩ := idxOf?_spec hfind
    refine ⟨i, hi,
      (if model = some Model.hrrr ∧ hour r % 6 ≠ 0 then .sl (some 19) else .sl none),
      by simpa using hget, ?_, ?_, ?_⟩
    · unfold ModelRun.get_indexer
      rw [hfind]
    · by_cases hc : model = some Model.hrrr ∧ hour r % 6 ≠ 0
      · rw [if_pos hc]
        unfold retainedCount
        rw [if_pos hc]
        rfl
      · rw [if_neg hc]
        unfold retainedCount
        rw [if_neg hc]
        rfl
    · intro hc
      unfold retainedCount
      rw [if_neg hc]

/-- Witness for C9: an off-cycle HRRR reference time (hour 1) on the §8
scenario axes resolves to position 1 with a truncated period range. -/
theorem modelRun_selector_witness :
    (1 : ℤ) ∈ scenarioTimes ∧
    ∃ (i : ℕ) (hi : i < scenarioTimes.length) (p : Idxr),
      scenarioTimes.get ⟨i, hi⟩ = 1 ∧
      ModelRun.get_indexer (some Model.hrrr) scenarioTimes scenarioPeriods 1 =
        .ok (.one (i : ℤ), p) ∧
      p.positions scenarioPeriods.length =
        (List.range (retainedCount (some Model.hrrr) 1 scenarioPeriods.length)).map Int.ofNat ∧
      (¬(some Model.hrrr = some Model.hrrr ∧ hour 1 % 6 ≠ 0) →
        retainedCount (some Model.hrrr) 1 scenarioPeriods.length = scenarioPeriods.length) :=
  ⟨by decide, modelRun_selector (some Model.hrrr) scenarioTimes scenarioPeriods 1 (by decide)⟩

/-- Claim C10: constructing `BestEstimate` with any non-`None` `asof`
raises during `__post_init__` — the lower-bound check compares against an
attribute `since` that is never defined — so resolution can never even be
reached through the dataclass constructor. -/
theorem bestEstimate_asof_construction_fails (a : ℤ) (model : Option Model)
    (time_index period_index : List ℤ) :
    BestEstimate.post_init (some a) = .error .attributeError ∧
    BestEstimate.resolve model time_index period_index (some a) = .error .attributeError :=
  ⟨rfl, rfl⟩

/-- Claim C5 (counterexample): with the period axis `[1h, 2h]` (position 0
not zero) and `asof = 0h`, end-to-end resolution does **not** fail with
InvalidConfiguration: constructing the query already fails with
`AttributeError` (the `__post_init__` bug of C10), so the period-axis check
is never reached for a non-`None` `asof`. -/
theorem bestEstimate_nonzero_start_counterexample :
    BestEstimate.resolve none [0] [1, 2] (some 0) = .error .attributeError ∧
    PyError.attributeError ≠ PyError.invalidConfiguration :=
  ⟨rfl, by decide⟩

/-- Claim C5 (amended): whenever the period axis does not start at the zero
duration, the resolution step `get_indexer` fails with InvalidConfiguration
for **every** `asof` value (the check precedes the `asof` lookup), and the
end-to-end resolution with `asof` unset — the only constructible form —
fails with InvalidConfiguration. -/
theorem bestEstimate_nonzero_period_start (model : Option Model) (time_index : List ℤ)
    (p0 : ℤ) (ps : List ℤ) (h : p0 ≠ 0) :
    (∀ asof : Option ℤ,
      BestEstimate.get_indexer model time_index (p0 :: ps) asof =
        .error .invalidConfiguration) ∧
    BestEstimate.resolve model time_index (p0 :: ps) none =
      .error .invalidConfiguration := by
  have hall : ∀ asof : Option ℤ,
      BestEstimate.get_indexer model time_index (p0 :: ps) asof =
        .error .invalidConfiguration := by
    intro asof
    simp only [BestEstimate.get_indexer]
    rw [if_pos h]
  exact ⟨hall, hall none⟩

/-- Witness for C5: period axis `[1h, 2h]` with `asof` unset. -/
theorem bestEstimate_nonzero_period_start_witness :
    ((1 : ℤ) ≠ 0) ∧
    (∀ asof : Option ℤ,
      BestEstimate.get_indexer none [0] ([1] ++ [2]) asof = .error .invalidConfiguration) ∧
    BestEstimate.resolve none [0] ([1] ++ [2]) none = .error .invalidConfiguration :=
  ⟨by decide, bestEstimate_nonzero_period_start none [0] 1 [2] (by decide)⟩

/-- Claim C8 (counterexample): binding a plain (non-Query) timestamp value
to the cube-query role fails with `AttributeError` — the dispatcher calls
`label.get_indexer(...)` before its type dispatch, and a plain value has no
such attribute — not with UnsupportedSelectorType. -/
theorem sel_unrecognized_value_counterexample :
    ForecastIndex.sel "forecast" "time" "step" none [0] [0]
        [("forecast", SelValue.plain 5)] = .error .attributeError ∧
    PyError.attributeError ≠ PyError.unsupportedSelectorType :=
  ⟨rfl, by decide⟩

/-- Claim C8 (amended): a cube-aware request whose bound value is not one of
the four Query objects always fails without producing a selection, but the
failure is UnsupportedSelectorType exactly when the value happens to expose
a `get_indexer` method (so that the call made before the type dispatch
succeeds and control reaches the fall-through branch); any other value fails
earlier with `AttributeError`. -/
theorem sel_unrecognized_value (dummy_name time_name period_name : String)
    (model : Option Model) (time_index period_index : List ℤ) (v : SelValue)
    (hd1 : dummy_name ≠ time_name) (hd2 : dummy_name ≠ period_name)
    (hv : ∀ q, v ≠ SelValue.query q) :
    ∃ e : PyError,
      ForecastIndex.sel dummy_name time_name period_name model time_index period_index
          [(dummy_name, v)] = .error e ∧
      (e = .unsupportedSelectorType ↔ v = SelValue.otherVal true) := by
  rw [sel_single_query _ _ _ _ _ _ _ hd1 hd2]
  cases v with
  | query q => exact absurd rfl (hv q)
  | plain x => exact ⟨.attributeError, rfl, by simp⟩
  | otherVal b =>
    cases b with
    | true => exact ⟨.unsupportedSelectorType, rfl, by simp⟩
    | false => exact ⟨.attributeError, rfl, by simp⟩

/-- Witness for C8: an unrecognized value exposing `get_indexer` reaches the
fall-through branch and fails with UnsupportedSelectorType. -/
theorem sel_unrecognized_value_witness :
    ("forecast" ≠ "time") ∧ ("forecast" ≠ "step") ∧
    (∀ q, SelValue.otherVal true ≠ SelValue.query q) ∧
    ∃ e : PyError,
      ForecastIndex.sel "forecast" "time" "step" none [0] [0]
          [("forecast", SelValue.otherVal true)] = .error e ∧
      (e = .unsupportedSelectorType ↔ SelValue.otherVal true = SelValue.otherVal true) :=
  ⟨by decide, by decide, by simp,
    sel_unrecognized_value "forecast" "time" "step" none [0] [0] (SelValue.otherVal true)
      (by decide) (by decide) (by simp)⟩

/-- Claim C2 (counterexample): on the axes `[0h, 1h, 2h]` / `[0h, 1h]`, the
query with `asof` = the last axis element (2h) cannot even be constructed —
resolution ends in `AttributeError` — while the query with `asof` unset
resolves normally, so the two do not produce the same selection
end-to-end. -/
theorem bestEstimate_asof_last_counterexample :
    BestEstimate.resolve none [0, 1, 2] [0, 1] (some 2) = .error .attributeError ∧
    BestEstimate.resolve none [0, 1, 2] [0, 1] none =
      .ok (.arr [0, 1, 2, 2], .arr [0, 0, 0, 1]) ∧
    BestEstimate.resolve none [0, 1, 2] [0, 1] (some 2) ≠
      BestEstimate.resolve none [0, 1, 2] [0, 1] none := by
  refine ⟨rfl, rfl, ?_⟩
  have h1 : BestEstimate.resolve none [0, 1, 2] [0, 1] (some 2) =
      .error .attributeError := rfl
  have h2 : BestEstimate.resolve none [0, 1, 2] [0, 1] none =
      .ok (.arr [0, 1, 2, 2], .arr [0, 0, 0, 1]) := rfl
  rw [h1, h2]
  simp

/-- Claim C2 (amended): the resolution step itself is equivalent — for a
sorted reference-time axis, dispatching `BestEstimate` with `asof` equal to
the last axis element through the dispatcher produces exactly the same
outcome (same position arrays, same synthetic result axis, same derived
valid times) as dispatching `BestEstimate` with `asof` unset; only the
query-object construction (C10) breaks the end-to-end equivalence. -/
theorem bestEstimate_asof_last_equiv (dummy_name time_name period_name : String)
    (model : Option Model) (time_index period_index : List ℤ)
    (hs : time_index.Pairwise (· < ·)) (hne : time_index ≠ [])
    (hd1 : dummy_name ≠ time_name) (hd2 : dummy_name ≠ period_name) :
    ForecastIndex.sel dummy_name time_name period_name model time_index period_index
        [(dummy_name, .query (.bestEstimate (some (time_index.getLast hne))))] =
    ForecastIndex.sel dummy_name time_name period_name model time_index period_index
        [(dummy_name, .query (.bestEstimate none))] := by
  rw [sel_single_query _ _ _ _ _ _ _ hd1 hd2, sel_single_query _ _ _ _ _ _ _ hd1 hd2]
  have hlen : 0 < time_index.length := List.length_pos.mpr hne
  have hfind : idxOf? time_index (time_index.getLast hne) =
      some (time_index.length - 1) := by
    rw [List.getLast_eq_getElem time_index hne]
    exact idxOf?_getElem hs _ (by omega)
  have hidx : BestEstimate.get_indexer model time_index period_index
      (some (time_index.getLast hne)) =
      BestEstimate.get_indexer model time_index period_index none := by
    simp only [BestEstimate.get_indexer, hfind]
  simp only [cubeSel, hidx]

/-- Witness for C2: concrete sorted axes; `asof = 2h` is the last axis
element. -/
theorem bestEstimate_asof_last_equiv_witness :
    (([0, 1, 2] : List ℤ).Pairwise (· < ·)) ∧
    ForecastIndex.sel "forecast" "time" "step" none [0, 1, 2] [0, 1]
        [("forecast", .query (.bestEstimate (some 2)))] =
    ForecastIndex.sel "forecast" "time" "step" none [0, 1, 2] [0, 1]
        [("forecast", .query (.bestEstimate none))] :=
  ⟨by decide,
    bestEstimate_asof_last_equiv "forecast" "time" "step" none [0, 1, 2] [0, 1]
      (by decide) (by decide) (by decide) (by decide)⟩

/-- Claim C6: every resolved selection produced by `ModelRun`,
`ConstantOffset` or `BestEstimate` carries a derived valid-time coordinate
that equals, element-wise over the broadcast selector pairs,
`ReferenceTimeAxis[time_selector] + PeriodAxis[period_selector]`: each
produced valid time is the sum of the corresponding retained reference time
and period. -/
theorem valid_time_roundtrip (dummy_name time_name period_name : String)
    (model : Option Model) (time_index period_index : List ℤ)
    (q : QueryLabel) (r : SelResult)
    (hd1 : dummy_name ≠ time_name) (hd2 : dummy_name ≠ period_name)
    (hq : ∀ t, q ≠ QueryLabel.constantForecast t)
    (hsel : ForecastIndex.sel dummy_name time_name period_name model time_index period_index
        [(dummy_name, .query q)] = .ok (.cube r)) :
    r.validTime = some
      ((bcastPairs (r.timeIdxr.positions time_index.length)
          (r.periodIdxr.positions period_index.length)).map
        (fun ij => pyGet time_index ij.1 + pyGet period_index ij.2)) := by
  rw [sel_single_query _ _ _ _ _ _ _ hd1 hd2] at hsel
  cases q with
  | constantForecast t => exact absurd rfl (hq t)
  | constantOffset s =>
    rcases hco : ConstantOffset.get_indexer model time_index period_index s with ⟨tix, pix⟩
    simp only [cubeSel, hco, Except.map, Except.ok.injEq, SelOutcome.cube.injEq] at hsel
    subst hsel
    simpa using (bcast_valsOf time_index period_index tix pix)
  | modelRun t =>
    rcases hmr : ModelRun.get_indexer model time_index period_index t with e | ⟨tix, pix⟩
    · simp only [cubeSel, hmr, Except.map] at hsel
      exact Except.noConfusion hsel
    · simp only [cubeSel, hmr, Except.map, Except.ok.injEq, SelOutcome.cube.injEq] at hsel
      subst hsel
      simpa using (bcast_valsOf time_index period_index tix pix)
  | bestEstimate a =>
    rcases hbe : BestEstimate.get_indexer model time_index period_index a with e | ⟨tix, pix⟩
    · simp only [cubeSel, hbe, Except.map] at hsel
      exact Except.noConfusion hsel
    · simp only [cubeSel, hbe, Except.map, Except.ok.injEq, SelOutcome.cube.injEq] at hsel
      subst hsel
      simpa using (bcast_valsOf time_index period_index tix pix)

/-- Witness for C6: `ModelRun(11h)` on the axes `[10h, 11h, 12h]` /
`[0h, 1h, 2h]` yields valid times `[11, 12, 13]`, the element-wise sums. -/
theorem valid_time_roundtrip_witness :
    (∀ t, QueryLabel.modelRun 11 ≠ QueryLabel.constantForecast t) ∧
    ForecastIndex.sel "forecast" "time" "step" none [10, 11, 12] [0, 1, 2]
        [("forecast", .query (.modelRun 11))] =
      .ok (.cube { timeIdxr := .one 1, periodIdxr := .sl none, resultDim := "step",
                   validTime := some [11, 12, 13], dropCoords := ["forecast"] }) ∧
    ({ timeIdxr := .one 1, periodIdxr := .sl none, resultDim := "step",
       validTime := some [11, 12, 13], dropCoords := ["forecast"] } : SelResult).validTime =
      some ((bcastPairs ((Idxr.one 1).positions ([10, 11, 12] : List ℤ).length)
          ((Idxr.sl none).positions ([0, 1, 2] : List ℤ).length)).map
        (fun ij => pyGet [10, 11, 12] ij.1 + pyGet [0, 1, 2] ij.2)) :=
  ⟨by simp, rfl,
    valid_time_roundtrip "forecast" "time" "step" none [10, 11, 12] [0, 1, 2]
      (.modelRun 11) _ (by decide) (by decide) (by simp) rfl⟩

/-! ## Claim C3: the diagonal cut -/

/-- Availability of a (reference time, period) cell exactly as the
`ConstantForecast` mask enforces it: under HRRR a period beyond 18 hours is
available only from a reference time whose hour-of-day is exactly 6; without
a model every cell is available. -/
def availableCF (model : Option Model) (t p : ℤ) : Prop :=
  model = some Model.hrrr → (hour t = 6 ∨ p ≤ 18)

/-- The candidate triples (reference position, reference time, looked-up
step position) that `ConstantForecast.get_indexer` builds before
filtering. -/
def cfTriples (time_index period_index : List ℤ) (target mx : ℤ) : List (ℕ × ℤ × ℤ) :=
  let left := lowerBound time_index (target - mx)
  let right := upperBound time_index target
  let needed_times := (time_index.drop left).take (right - left)
  (List.range' left (right - left)).zip
    (needed_times.zip (needed_times.map (fun t => getIndexer1 period_index (target - t))))

/-- The filter `ConstantForecast.get_indexer` applies to the candidate
triples: the HRRR mask and the exact-match mask. -/
def cfPred (model : Option Model) (target : ℤ) (x : ℕ × ℤ × ℤ) : Bool :=
  (!(decide (model = some Model.hrrr) && decide (hour x.2.1 ≠ 6)
      && decide (target - x.2.1 > 18))) && (x.2.2 != -1)

/-- The surviving triples. -/
def cfKept (model : Option Model) (time_index period_index : List ℤ)
    (target mx : ℤ) : List (ℕ × ℤ × ℤ) :=
  (cfTriples time_index period_index target mx).filter (cfPred model target)

/-- `ConstantForecast.get_indexer` restated through `cfKept`. -/
theorem constantForecast_eq (model : Option Model) (time_index period_index : List ℤ)
    (target mx : ℤ) (hmx : period_index.getLast? = some mx) :
    ConstantForecast.get_indexer model time_index period_index target =
      .ok (.arr ((cfKept model time_index period_index target mx).map fun x => (x.1 : ℤ)),
           .arr ((cfKept model time_index period_index target mx).map fun x => x.2.2)) := by
  unfold ConstantForecast.get_indexer cfKept cfTriples cfPred
  rw [hmx]

/-- Positions left of `lowerBound` are exactly those with value below the
bound (sorted axis). -/
theorem lowerBound_lt_iff {l : List ℤ} (hs : l.Pairwise (· < ·)) {i : ℕ}
    (hi : i < l.length) (e : ℤ) : l[i] < e ↔ i < lowerBound l e := by
  have h := boundCount_spec (p := fun x => decide (x < e))
    (fun x y hxy hy => by
      simp only [decide_eq_true_eq] at hy ⊢
      omega) hs hi
  simpa [lowerBound] using h

/-- Positions left of `upperBound` are exactly those with value at most the
bound (sorted axis). -/
theorem upperBound_le_iff {l : List ℤ} (hs : l.Pairwise (· < ·)) {i : ℕ}
    (hi : i < l.length) (e : ℤ) : l[i] ≤ e ↔ i < upperBound l e := by
  have h := boundCount_spec (p := fun x => decide (x ≤ e))
    (fun x y hxy hy => by
      simp only [decide_eq_true_eq] at hy ⊢
      omega) hs hi
  simpa [upperBound] using h

/-- On a sorted axis every element is at most the last one. -/
theorem getElem_le_getLast {l : List ℤ} (hs : l.Pairwise (· < ·)) {mx : ℤ}
    (hmx : l.getLast? = some mx) {j : ℕ} (hj : j < l.length) : l[j] ≤ mx := by
  have hne : l ≠ [] := by
    rintro rfl
    simp at hmx
  have hval : l.getLast hne = mx := by
    rw [List.getLast?_eq_getLast l hne] at hmx
    exact Option.some.inj hmx
  rw [← hval, List.getLast_eq_getElem l hne]
  rcases Nat.lt_or_ge j (l.length - 1) with h | h
  · exact le_of_lt (List.pairwise_iff_getElem.mp hs j (l.length - 1) hj (by omega) h)
  · have hj1 : j = l.length - 1 := by omega
    subst hj1
    exact le_refl _

theorem cfTriples_length (time_index period_index : List ℤ) (target mx : ℤ) :
    (cfTriples time_index period_index target mx).length =
      upperBound time_index target - lowerBound time_index (target - mx) := by
  have hub : upperBound time_index target ≤ time_index.length :=
    boundCount_le_length _ _
  simp only [cfTriples, List.length_zip, List.length_range', List.length_take,
    List.length_drop, List.length_map]
  omega

theorem cfTriples_getElem {time_index period_index : List ℤ} {target mx : ℤ} {m : ℕ}
    (hm : m < (cfTriples time_index period_index target mx).length) :
    ∃ hlm : lowerBound time_index (target - mx) + m < time_index.length,
      (cfTriples time_index period_index target mx)[m] =
        (lowerBound time_index (target - mx) + m,
         time_index[lowerBound time_index (target - mx) + m],
         getIndexer1 period_index
           (target - time_index[lowerBound time_index (target - mx) + m])) := by
  have hub : upperBound time_index target ≤ time_index.length :=
    boundCount_le_length _ _
  have hlen := cfTriples_length time_index period_index target mx
  have hmn : m < upperBound time_index target - lowerBound time_index (target - mx) := by
    omega
  have hlm : lowerBound time_index (target - mx) + m < time_index.length := by omega
  refine ⟨hlm, ?_⟩
  unfold cfTriples
  rw [List.getElem_zip, List.getElem_zip, List.getElem_range', List.getElem_map,
    List.getElem_take, List.getElem_drop]
  simp only [Nat.one_mul]

/-- Every triple surviving the `ConstantForecast` filter denotes an
in-range reference position whose looked-up period position is an exact
match summing to the target, and the pair is available under the mask. -/
theorem cfKept_mem_spec {model : Option Model} {time_index period_index : List ℤ}
    {target mx : ℤ} {x : ℕ × ℤ × ℤ}
    (hx : x ∈ cfKept model time_index period_index target mx) :
    ∃ (i j : ℕ) (hi : i < time_index.length) (hj : j < period_index.length),
      x.1 = i ∧ x.2.2 = (j : ℤ) ∧
      time_index[i] + period_index[j] = target ∧
      availableCF model time_index[i] period_index[j] := by
  obtain ⟨hmem, hpred⟩ := List.mem_filter.mp hx
  obtain ⟨m, hm, hxeq⟩ := List.mem_iff_getElem.mp hmem
  obtain ⟨hlm, heq⟩ := cfTriples_getElem hm
  have heq' : x = (lowerBound time_index (target - mx) + m,
      time_index[lowerBound time_index (target - mx) + m],
      getIndexer1 period_index
        (target - time_index[lowerBound time_index (target - mx) + m])) := by
    rw [← hxeq, heq]
  have h1 : x.1 = lowerBound time_index (target - mx) + m := by rw [heq']
  have h21 : x.2.1 = time_index[lowerBound time_index (target - mx) + m] := by rw [heq']
  have h22 : x.2.2 = getIndexer1 period_index
      (target - time_index[lowerBound time_index (target - mx) + m]) := by rw [heq']
  simp only [cfPred, Bool.and_eq_true, Bool.not_eq_true', Bool.and_eq_false_iff,
    bne_iff_ne, ne_eq, decide_eq_true_eq, decide_eq_false_iff_not] at hpred
  obtain ⟨hmask, hgi⟩ := hpred
  rw [h21] at hmask
  rw [h22] at hgi
  obtain ⟨j, hj, hgieq, hpij⟩ := getIndexer1_spec hgi
  refine ⟨lowerBound time_index (target - mx) + m, j, hlm, hj, h1, ?_, by omega, ?_⟩
  · rw [h22, hgieq]
  · intro hmodel
    rcases hmask with h | h
    · rcases h with h | h
      · exact absurd hmodel h
      · exact Or.inl (by omega)
    · exact Or.inr (by omega)

/-- Claim C3: whenever `ConstantForecast` resolution succeeds (sorted axes,
non-empty period axis of non-negative durations), every returned
(reference time, period) position pair sums exactly to the target and is
available under the mask, the two selector arrays have equal length, and
they are empty exactly when no available axis pair sums to the target; a
zero-length result is a normal `.ok`, never an error. -/
theorem constantForecast_diagonal (model : Option Model)
    (time_index period_index : List ℤ) (target : ℤ)
    (hts : time_index.Pairwise (· < ·)) (hps : period_index.Pairwise (· < ·))
    (hne : period_index ≠ []) (hpos : ∀ p ∈ period_index, 0 ≤ p) :
    ∃ tis sis : List ℤ,
      ConstantForecast.get_indexer model time_index period_index target =
        .ok (.arr tis, .arr sis) ∧
      sis.length = tis.length ∧
      (∀ k (hk : k < tis.length) (hk2 : k < sis.length),
        ∃ (i j : ℕ) (hi : i < time_index.length) (hj : j < period_index.length),
          tis.get ⟨k, hk⟩ = (i : ℤ) ∧ sis.get ⟨k, hk2⟩ = (j : ℤ) ∧
          time_index.get ⟨i, hi⟩ + period_index.get ⟨j, hj⟩ = target ∧
          availableCF model (time_index.get ⟨i, hi⟩) (period_index.get ⟨j, hj⟩)) ∧
      (tis = [] ↔
        ¬ ∃ (i j : ℕ) (hi : i < time_index.length) (hj : j < period_index.length),
          time_index.get ⟨i, hi⟩ + period_index.get ⟨j, hj⟩ = target ∧
          availableCF model (time_index.get ⟨i, hi⟩) (period_index.get ⟨j, hj⟩)) := by
  have hmx : period_index.getLast? = some (period_index.getLast hne) :=
    List.getLast?_eq_getLast period_index hne
  set mx := period_index.getLast hne with hmxdef
  refine ⟨(cfKept model time_index period_index target mx).map (fun x => (x.1 : ℤ)),
    (cfKept model time_index period_index target mx).map (fun x => x.2.2),
    constantForecast_eq model time_index period_index target mx hmx, by simp, ?_, ?_⟩
  · intro k hk hk2
    have hk' : k < (cfKept model time_index period_index target mx).length := by
      simpa using hk
    have hmem : (cfKept model time_index period_index target mx)[k] ∈
        cfKept model time_index period_index target mx := List.getElem_mem hk'
    obtain ⟨i, j, hi, hj, hx1, hx22, hsum, havail⟩ := cfKept_mem_spec hmem
    refine ⟨i, j, hi, hj, ?_, ?_, ?_, ?_⟩
    · simp only [List.get_eq_getElem, List.getElem_map]
      exact_mod_cast hx1
    · simp only [List.get_eq_getElem, List.getElem_map]
      exact hx22
    · simpa [List.get_eq_getElem] using hsum
    · simpa [List.get_eq_getElem] using havail
  · constructor
    · intro hnil hpair
      obtain ⟨i, j, hi, hj, hsum, havail⟩ := hpair
      rw [List.map_eq_nil_iff] at hnil
      have hnokeep := List.filter_eq_nil_iff.mp hnil
      have hsum' : time_index[i] + period_index[j] = target := by
        simpa [List.get_eq_getElem] using hsum
      have havail' : availableCF model time_index[i] period_index[j] := by
        simpa [List.get_eq_getElem] using havail
      have hpj0 : 0 ≤ period_index[j] := hpos _ (List.getElem_mem hj)
      have hpjmx : period_index[j] ≤ mx := getElem_le_getLast hps hmx hj
      have hiright : i < upperBound time_index target :=
        (upperBound_le_iff hts hi target).mp (by omega)
      have hileft : lowerBound time_index (target - mx) ≤ i := by
        by_contra hcon
        have := (lowerBound_lt_iff hts hi (target - mx)).mpr (by omega)
        omega
      have hmlen : i - lowerBound time_index (target - mx) <
          (cfTriples time_index period_index target mx).length := by
        rw [cfTriples_length]
        omega
      obtain ⟨hlm, heq⟩ := cfTriples_getElem hmlen
      have hieq : lowerBound time_index (target - mx) +
          (i - lowerBound time_index (target - mx)) = i := by omega
      simp only [hieq] at heq
      have htmem : (i, time_index[i], getIndexer1 period_index (target - time_index[i])) ∈
          cfTriples time_index period_index target mx := by
        rw [← heq]
        exact List.getElem_mem hmlen
      have hstep : target - time_index[i] = period_index[j] := by omega
      have hpredx : cfPred model target
          (i, time_index[i], getIndexer1 period_index (target - time_index[i])) = true := by
        simp only [cfPred, Bool.and_eq_true, Bool.not_eq_true', Bool.and_eq_false_iff,
          bne_iff_ne, ne_eq, decide_eq_true_eq, decide_eq_false_iff_not]
        constructor
        · by_cases hmodel : model = some Model.hrrr
          · rcases havail' hmodel with h6 | h18
            · exact Or.inl (Or.inr (by simpa using h6))
            · exact Or.inr (by omega)
          · exact Or.inl (Or.inl hmodel)
        · rw [hstep]
          exact getIndexer1_of_mem (List.getElem_mem hj)
      exact (hnokeep _ htmem) hpredx
    · intro hnopair
      by_contra hnenil
      have hkpos : 0 < ((cfKept model time_index period_index target mx).map
          (fun x => (x.1 : ℤ))).length := by
        rcases Nat.eq_zero_or_pos ((cfKept model time_index period_index target mx).map
            (fun x => (x.1 : ℤ))).length with h | h
        · exact absurd (List.eq_nil_of_length_eq_zero h) hnenil
        · exact h
      have hk' : 0 < (cfKept model time_index period_index target mx).length := by
        simpa using hkpos
      have hmem : (cfKept model time_index period_index target mx)[0] ∈
          cfKept model time_index period_index target mx := List.getElem_mem hk'
      obtain ⟨i, j, hi, hj, _, _, hsum, havail⟩ := cfKept_mem_spec hmem
      exact hnopair ⟨i, j, hi, hj, by simpa [List.get_eq_getElem] using hsum,
        by simpa [List.get_eq_getElem] using havail⟩

/-- Witness for C3: the §8 scenario at valid time 30h — sorted hourly axes,
non-negative periods — resolves successfully; the surviving pairs are the
on-cycle 06:00 run at lead 24h and the runs from 12:00 onward at leads of at
most 18h. -/
theorem constantForecast_diagonal_witness :
    scenarioTimes.Pairwise (· < ·) ∧ scenarioPeriods.Pairwise (· < ·) ∧
    scenarioPeriods ≠ [] ∧ (∀ p ∈ scenarioPeriods, 0 ≤ p) ∧
    ∃ tis sis : List ℤ,
      ConstantForecast.get_indexer (some Model.hrrr) scenarioTimes scenarioPeriods 30 =
        .ok (.arr tis, .arr sis) ∧
      sis.length = tis.length ∧
      (∀ k (hk : k < tis.length) (hk2 : k < sis.length),
        ∃ (i j : ℕ) (hi : i < scenarioTimes.length) (hj : j < scenarioPeriods.length),
          tis.get ⟨k, hk⟩ = (i : ℤ) ∧ sis.get ⟨k, hk2⟩ = (j : ℤ) ∧
          scenarioTimes.get ⟨i, hi⟩ + scenarioPeriods.get ⟨j, hj⟩ = 30 ∧
          availableCF (some Model.hrrr) (scenarioTimes.get ⟨i, hi⟩)
            (scenarioPeriods.get ⟨j, hj⟩)) ∧
      (tis = [] ↔
        ¬ ∃ (i j : ℕ) (hi : i < scenarioTimes.length) (hj : j < scenarioPeriods.length),
          scenarioTimes.get ⟨i, hi⟩ + scenarioPeriods.get ⟨j, hj⟩ = 30 ∧
          availableCF (some Model.hrrr) (scenarioTimes.get ⟨i, hi⟩)
            (scenarioPeriods.get ⟨j, hj⟩)) :=
  ⟨by decide, by decide, by decide, by decide,
    constantForecast_diagonal (some Model.hrrr) scenarioTimes scenarioPeriods 30
      (by decide) (by decide) (by decide) (by decide)⟩

end ForecastSpec
